import Mathlib

/-!
Shallow embedding of the xrm2m Go package (src/golang/code/src/xrm2m):
jsonrpc.go (the M2M JSON-RPC client with latch-once error handling and the
request builder) and ssh.go (SSH session construction with staged errors,
the background preamble-discard goroutine, and the readiness gate on
session reads and writes).  External effects (the net/rpc Call and the ssh
package operations) are passed in as explicit oracles.
-/

namespace Xrm2m

/-- Go interface values as they flow through the RPC layer: the argument
values the wrappers pass are strings, except the call-site defined value
of Set, which may be any interface value (modelled by the two cases). -/
inductive GoVal where
  | str (s : String)
  | int (n : Int)
  deriving DecidableEq, Repr

/-- A JSON-RPC request parameter object: a Go map from argument name to
value, modelled as an association list where assignment replaces the
binding of an existing key in place. -/
abbrev Request := List (String × GoVal)

/-- Go map assignment request[k] = v: replace the existing binding of k,
or append a new one. -/
def mapInsert (m : Request) (k : String) (v : GoVal) : Request :=
  match m with
  | [] => [(k, v)]
  | (k0, v0) :: rest => if k0 = k then (k, v) :: rest else (k0, v0) :: mapInsert rest k v

/-- The loop of make_request (jsonrpc.go lines 186-188):
for i := 0; i < len(args); i += 2 : request[args[i].(string)] = args[i+1].
`none` models a runtime panic: the type assertion args[i].(string) failing
on a non-string, or args[i+1] indexing out of bounds on an odd-length list. -/
def make_request_go (request : Request) : List GoVal → Option Request
  | [] => some request
  | GoVal.str name :: v :: rest => make_request_go (mapInsert request name v) rest
  | [GoVal.str _] => none
  | _ :: _ => none

/-- make_request (jsonrpc.go lines 184-190): collapse the positional
name/value argument list into a request mapping. -/
def make_request (args : List GoVal) : Option Request :=
  make_request_go [] args

/-- M2MClient (jsonrpc.go lines 15-19): the embedded rpc.Client is
replaced by the Net oracle below; Error and LastOp are the latched error
and the name of the last attempted JSON-RPC method. -/
structure M2MClient where
  Error : Option String
  LastOp : String
  deriving DecidableEq, Repr

/-- The rpc.Client.Call oracle, one field per reply type the helpers
decode into (Go instantiates one generic Call at each reply type).
An `Except.error` is any failure of the round trip: transport, decode,
or remote rejection. -/
structure Net where
  callString : String → Request → Except String String
  callOptString : String → Request → Except String (Option String)
  callArrArr : String → Request → Except String (List (List GoVal))
  callStrArr : String → Request → Except String (List String)
  callArrObj : String → Request → Except String (List Request)
  callObj : String → Request → Except String Request
  callVoid : String → Request → Except String GoVal

/-- call_for_array_of_arrays (jsonrpc.go lines 111-119).  The Nat is the
number of Call round trips performed (0 when the latched error causes the
skip).  `none` propagates a make_request panic. -/
def call_for_array_of_arrays (net : Net) (m2m : M2MClient) (method : String)
    (args : List GoVal) : Option (M2MClient × List (List GoVal) × Nat) :=
  match m2m.Error with
  | some _ => some (m2m, [], 0)
  | none =>
    match make_request args with
    | none => none
    | some req =>
      match net.callArrArr method req with
      | .ok reply => some ({ Error := none, LastOp := method }, reply, 1)
      | .error e => some ({ Error := some e, LastOp := method }, [], 1)

/-- call_for_object (jsonrpc.go lines 121-129). -/
def call_for_object (net : Net) (m2m : M2MClient) (method : String)
    (args : List GoVal) : Option (M2MClient × Request × Nat) :=
  match m2m.Error with
  | some _ => some (m2m, [], 0)
  | none =>
    match make_request args with
    | none => none
    | some req =>
      match net.callObj method req with
      | .ok reply => some ({ Error := none, LastOp := method }, reply, 1)
      | .error e => some ({ Error := some e, LastOp := method }, [], 1)

/-- call_for_array_of_objects (jsonrpc.go lines 131-139). -/
def call_for_array_of_objects (net : Net) (m2m : M2MClient) (method : String)
    (args : List GoVal) : Option (M2MClient × List Request × Nat) :=
  match m2m.Error with
  | some _ => some (m2m, [], 0)
  | none =>
    match make_request args with
    | none => none
    | some req =>
      match net.callArrObj method req with
      | .ok reply => some ({ Error := none, LastOp := method }, reply, 1)
      | .error e => some ({ Error := some e, LastOp := method }, [], 1)

/-- call_for_string (jsonrpc.go lines 141-149).  On a Call error the reply
variable keeps its zero value "". -/
def call_for_string (net : Net) (m2m : M2MClient) (method : String)
    (args : List GoVal) : Option (M2MClient × String × Nat) :=
  match m2m.Error with
  | some _ => some (m2m, "", 0)
  | none =>
    match make_request args with
    | none => none
    | some req =>
      match net.callString method req with
      | .ok reply => some ({ Error := none, LastOp := method }, reply, 1)
      | .error e => some ({ Error := some e, LastOp := method }, "", 1)

/-- call_for_optional_string (jsonrpc.go lines 151-163): the reply is a
*string; a nil reply (Except.ok none) is returned as "". -/
def call_for_optional_string (net : Net) (m2m : M2MClient) (method : String)
    (args : List GoVal) : Option (M2MClient × String × Nat) :=
  match m2m.Error with
  | some _ => some (m2m, "", 0)
  | none =>
    match make_request args with
    | none => none
    | some req =>
      match net.callOptString method req with
      | .ok (some s) => some ({ Error := none, LastOp := method }, s, 1)
      | .ok none => some ({ Error := none, LastOp := method }, "", 1)
      | .error e => some ({ Error := some e, LastOp := method }, "", 1)

/-- call_for_string_array (jsonrpc.go lines 165-173). -/
def call_for_string_array (net : Net) (m2m : M2MClient) (method : String)
    (args : List GoVal) : Option (M2MClient × List String × Nat) :=
  match m2m.Error with
  | some _ => some (m2m, [], 0)
  | none =>
    match make_request args with
    | none => none
    | some req =>
      match net.callStrArr method req with
      | .ok reply => some ({ Error := none, LastOp := method }, reply, 1)
      | .error e => some ({ Error := some e, LastOp := method }, [], 1)

/-- call_for_void (jsonrpc.go lines 175-182): the interface reply is
discarded. -/
def call_for_void (net : Net) (m2m : M2MClient) (method : String)
    (args : List GoVal) : Option (M2MClient × Nat) :=
  match m2m.Error with
  | some _ => some (m2m, 0)
  | none =>
    match make_request args with
    | none => none
    | some req =>
      match net.callVoid method req with
      | .ok _ => some ({ Error := none, LastOp := method }, 1)
      | .error e => some ({ Error := some e, LastOp := method }, 1)

/-- Go string(data) for a byte slice. -/
def string_of_bytes (b : List Nat) : String :=
  String.mk (b.map Char.ofNat)

/-- The typed public operations of the client (jsonrpc.go lines 35-105),
one constructor per wrapper method. -/
inductive Op where
  | CliExec (command : String)
  | CliGet (command : String)
  | CliSet (command : String)
  | WriteFile (filename : String) (data : List Nat)
  | Get (path : String)
  | GetChildren (path : String)
  | Set (path : String) (value : GoVal)
  | Delete (path : String)
  | Replace (path : String)
  | Commit (comment label : String)
  | CommitReplace (comment label : String)
  | DiscardChanges
  | GetChanges
  | GetSchema (path fields : String)
  | GetVersion
  deriving DecidableEq, Repr

/-- The JSON-RPC method name each wrapper passes to its helper. -/
def methodName : Op → String
  | .CliExec _ => "cli_exec"
  | .CliGet _ => "cli_get"
  | .CliSet _ => "cli_set"
  | .WriteFile _ _ => "write_file"
  | .Get _ => "get"
  | .GetChildren _ => "get_children"
  | .Set _ _ => "set"
  | .Delete _ => "delete"
  | .Replace _ => "replace"
  | .Commit _ _ => "commit"
  | .CommitReplace _ _ => "commit_replace"
  | .DiscardChanges => "discard_changes"
  | .GetChanges => "get_changes"
  | .GetSchema _ _ => "get_schema"
  | .GetVersion => "get_version"

/-- The positional argument list each wrapper passes to its helper
(jsonrpc.go lines 35-105; GetSchema passes "fields" only when non-empty,
lines 95-101). -/
def argsOf : Op → List GoVal
  | .CliExec command => [.str "command", .str command]
  | .CliGet command => [.str "command", .str command]
  | .CliSet command => [.str "command", .str command]
  | .WriteFile filename data =>
      [.str "filename", .str filename, .str "data", .str (string_of_bytes data)]
  | .Get path => [.str "path", .str path]
  | .GetChildren path => [.str "path", .str path]
  | .Set path value => [.str "path", .str path, .str "value", value]
  | .Delete path => [.str "path", .str path]
  | .Replace path => [.str "path", .str path]
  | .Commit comment label => [.str "comment", .str comment, .str "label", .str label]
  | .CommitReplace comment label => [.str "comment", .str comment, .str "label", .str label]
  | .DiscardChanges => []
  | .GetChanges => []
  | .GetSchema path fields =>
      if fields ≠ "" then [.str "path", .str path, .str "fields", .str fields]
      else [.str "path", .str path]
  | .GetVersion => []

/-- A typed operation result, one case per helper reply shape. -/
inductive OpResult where
  | str (s : String)
  | arrArr (a : List (List GoVal))
  | strArr (a : List String)
  | arrObj (a : List Request)
  | obj (o : Request)
  | void
  deriving DecidableEq, Repr

/-- The Go zero value each helper returns when it skips the round trip:
"" for strings (plain and optional), nil for slices and maps, nothing for
void. -/
def zeroResult : Op → OpResult
  | .CliExec _ => .str ""
  | .CliGet _ => .arrArr []
  | .CliSet _ => .void
  | .WriteFile _ _ => .void
  | .Get _ => .arrArr []
  | .GetChildren _ => .strArr []
  | .Set _ _ => .void
  | .Delete _ => .void
  | .Replace _ => .void
  | .Commit _ _ => .str ""
  | .CommitReplace _ _ => .str ""
  | .DiscardChanges => .void
  | .GetChanges => .arrObj []
  | .GetSchema _ _ => .obj []
  | .GetVersion => .obj []

/-- One public operation on the client: dispatch to the helper the source
wrapper calls, with the method name and argument list of `methodName` and
`argsOf`.  Returns the new client state, the typed result, and the number
of Call round trips performed; `none` models a make_request panic. -/
def runOp (net : Net) (m2m : M2MClient) (op : Op) :
    Option (M2MClient × OpResult × Nat) :=
  match op with
  | .CliExec command =>
      (call_for_string net m2m "cli_exec" (argsOf (.CliExec command))).map
        (fun r => (r.1, .str r.2.1, r.2.2))
  | .CliGet command =>
      (call_for_array_of_arrays net m2m "cli_get" (argsOf (.CliGet command))).map
        (fun r => (r.1, .arrArr r.2.1, r.2.2))
  | .CliSet command =>
      (call_for_void net m2m "cli_set" (argsOf (.CliSet command))).map
        (fun r => (r.1, .void, r.2))
  | .WriteFile filename data =>
      (call_for_void net m2m "write_file" (argsOf (.WriteFile filename data))).map
        (fun r => (r.1, .void, r.2))
  | .Get path =>
      (call_for_array_of_arrays net m2m "get" (argsOf (.Get path))).map
        (fun r => (r.1, .arrArr r.2.1, r.2.2))
  | .GetChildren path =>
      (call_for_string_array net m2m "get_children" (argsOf (.GetChildren path))).map
        (fun r => (r.1, .strArr r.2.1, r.2.2))
  | .Set path value =>
      (call_for_void net m2m "set" (argsOf (.Set path value))).map
        (fun r => (r.1, .void, r.2))
  | .Delete path =>
      (call_for_void net m2m "delete" (argsOf (.Delete path))).map
        (fun r => (r.1, .void, r.2))
  | .Replace path =>
      (call_for_void net m2m "replace" (argsOf (.Replace path))).map
        (fun r => (r.1, .void, r.2))
  | .Commit comment label =>
      (call_for_optional_string net m2m "commit" (argsOf (.Commit comment label))).map
        (fun r => (r.1, .str r.2.1, r.2.2))
  | .CommitReplace comment label =>
      (call_for_optional_string net m2m "commit_replace"
          (argsOf (.CommitReplace comment label))).map
        (fun r => (r.1, .str r.2.1, r.2.2))
  | .DiscardChanges =>
      (call_for_void net m2m "discard_changes" (argsOf .DiscardChanges)).map
        (fun r => (r.1, .void, r.2))
  | .GetChanges =>
      (call_for_array_of_objects net m2m "get_changes" (argsOf .GetChanges)).map
        (fun r => (r.1, .arrObj r.2.1, r.2.2))
  | .GetSchema path fields =>
      (call_for_object net m2m "get_schema" (argsOf (.GetSchema path fields))).map
        (fun r => (r.1, .obj r.2.1, r.2.2))
  | .GetVersion =>
      (call_for_object net m2m "get_version" (argsOf .GetVersion)).map
        (fun r => (r.1, .obj r.2.1, r.2.2))

/-- A sequence of operations run left to right, threading the client state
and collecting each operation's result and round-trip count. -/
def runOps (net : Net) : M2MClient → List Op → Option (M2MClient × List (OpResult × Nat))
  | m2m, [] => some (m2m, [])
  | m2m, op :: rest =>
    match runOp net m2m op with
    | none => none
    | some (m2m1, res, k) =>
      match runOps net m2m1 rest with
      | none => none
      | some (m2mF, recs) => some (m2mF, (res, k) :: recs)

/-- The client state NewClient returns (jsonrpc.go line 27): nil error,
empty LastOp. -/
def freshClient : M2MClient := { Error := none, LastOp := "" }

/-- On a faulted client every operation skips the round trip, returns the
zero value, performs zero Calls and leaves the state untouched. -/
theorem runOp_faulted (net : Net) (m2m : M2MClient) (op : Op) (e : String)
    (he : m2m.Error = some e) :
    runOp net m2m op = some (m2m, zeroResult op, 0) := by
  cases op <;>
    simp [runOp, call_for_string, call_for_array_of_arrays, call_for_void,
      call_for_string_array, call_for_optional_string, call_for_array_of_objects,
      call_for_object, he, zeroResult]

/-- On a faulted client a whole sequence of operations leaves the state
untouched and yields the zero value with zero Calls at every position. -/
theorem runOps_faulted (net : Net) (m2m : M2MClient) (e : String)
    (he : m2m.Error = some e) :
    ∀ ops : List Op,
      runOps net m2m ops = some (m2m, ops.map (fun op => (zeroResult op, 0)))
  | [] => by simp [runOps]
  | op :: rest => by
    have h1 := runOp_faulted net m2m op e he
    have h2 := runOps_faulted net m2m e he rest
    simp [runOps, h1, h2]


/-- The request mapping make_request builds from each wrapper's argument
list. -/
def reqOf : Op → Request
  | .CliExec command => [("command", .str command)]
  | .CliGet command => [("command", .str command)]
  | .CliSet command => [("command", .str command)]
  | .WriteFile filename data =>
      [("filename", .str filename), ("data", .str (string_of_bytes data))]
  | .Get path => [("path", .str path)]
  | .GetChildren path => [("path", .str path)]
  | .Set path value => [("path", .str path), ("value", value)]
  | .Delete path => [("path", .str path)]
  | .Replace path => [("path", .str path)]
  | .Commit comment label => [("comment", .str comment), ("label", .str label)]
  | .CommitReplace comment label => [("comment", .str comment), ("label", .str label)]
  | .DiscardChanges => []
  | .GetChanges => []
  | .GetSchema path fields =>
      if fields ≠ "" then [("path", .str path), ("fields", .str fields)]
      else [("path", .str path)]
  | .GetVersion => []

/-- make_request succeeds on every wrapper's argument list and builds the
mapping of `reqOf`. -/
theorem make_request_argsOf (op : Op) : make_request (argsOf op) = some (reqOf op) := by
  cases op
  case GetSchema path fields =>
    by_cases hf : fields = ""
    · subst hf
      rfl
    · simp only [argsOf, reqOf, if_pos hf]
      rfl
  all_goals rfl

/-- On a clean client, call_for_string performs one Call and stamps LastOp. -/
theorem call_for_string_clean (net : Net) (m2m : M2MClient) (method : String)
    (args : List GoVal) (req : Request) (hc : m2m.Error = none)
    (hreq : make_request args = some req) :
    ∃ st rep, call_for_string net m2m method args = some (st, rep, 1)
      ∧ st.LastOp = method := by
  rcases h : net.callString method req with e | reply
  · exact ⟨{ Error := some e, LastOp := method }, "",
      by simp [call_for_string, hc, hreq, h], rfl⟩
  · exact ⟨{ Error := none, LastOp := method }, reply,
      by simp [call_for_string, hc, hreq, h], rfl⟩

/-- On a clean client, call_for_array_of_arrays performs one Call and
stamps LastOp. -/
theorem call_for_array_of_arrays_clean (net : Net) (m2m : M2MClient) (method : String)
    (args : List GoVal) (req : Request) (hc : m2m.Error = none)
    (hreq : make_request args = some req) :
    ∃ st rep, call_for_array_of_arrays net m2m method args = some (st, rep, 1)
      ∧ st.LastOp = method := by
  rcases h : net.callArrArr method req with e | reply
  · exact ⟨{ Error := some e, LastOp := method }, [],
      by simp [call_for_array_of_arrays, hc, hreq, h], rfl⟩
  · exact ⟨{ Error := none, LastOp := method }, reply,
      by simp [call_for_array_of_arrays, hc, hreq, h], rfl⟩

/-- On a clean client, call_for_array_of_objects performs one Call and
stamps LastOp. -/
theorem call_for_array_of_objects_clean (net : Net) (m2m : M2MClient) (method : String)
    (args : List GoVal) (req : Request) (hc : m2m.Error = none)
    (hreq : make_request args = some req) :
    ∃ st rep, call_for_array_of_objects net m2m method args = some (st, rep, 1)
      ∧ st.LastOp = method := by
  rcases h : net.callArrObj method req with e | reply
  · exact ⟨{ Error := some e, LastOp := method }, [],
      by simp [call_for_array_of_objects, hc, hreq, h], rfl⟩
  · exact ⟨{ Error := none, LastOp := method }, reply,
      by simp [call_for_array_of_objects, hc, hreq, h], rfl⟩

/-- On a clean client, call_for_object performs one Call and stamps LastOp. -/
theorem call_for_object_clean (net : Net) (m2m : M2MClient) (method : String)
    (args : List GoVal) (req : Request) (hc : m2m.Error = none)
    (hreq : make_request args = some req) :
    ∃ st rep, call_for_object net m2m method args = some (st, rep, 1)
      ∧ st.LastOp = method := by
  rcases h : net.callObj method req with e | reply
  · exact ⟨{ Error := some e, LastOp := method }, [],
      by simp [call_for_object, hc, hreq, h], rfl⟩
  · exact ⟨{ Error := none, LastOp := method }, reply,
      by simp [call_for_object, hc, hreq, h], rfl⟩

/-- On a clean client, call_for_string_array performs one Call and stamps
LastOp. -/
theorem call_for_string_array_clean (net : Net) (m2m : M2MClient) (method : String)
    (args : List GoVal) (req : Request) (hc : m2m.Error = none)
    (hreq : make_request args = some req) :
    ∃ st rep, call_for_string_array net m2m method args = some (st, rep, 1)
      ∧ st.LastOp = method := by
  rcases h : net.callStrArr method req with e | reply
  · exact ⟨{ Error := some e, LastOp := method }, [],
      by simp [call_for_string_array, hc, hreq, h], rfl⟩
  · exact ⟨{ Error := none, LastOp := method }, reply,
      by simp [call_for_string_array, hc, hreq, h], rfl⟩

/-- On a clean client, call_for_optional_string performs one Call and
stamps LastOp. -/
theorem call_for_optional_string_clean (net : Net) (m2m : M2MClient) (method : String)
    (args : List GoVal) (req : Request) (hc : m2m.Error = none)
    (hreq : make_request args = some req) :
    ∃ st rep, call_for_optional_string net m2m method args = some (st, rep, 1)
      ∧ st.LastOp = method := by
  rcases h : net.callOptString method req with e | reply
  · exact ⟨{ Error := some e, LastOp := method }, "",
      by simp [call_for_optional_string, hc, hreq, h], rfl⟩
  · rcases reply with _ | s
    · exact ⟨{ Error := none, LastOp := method }, "",
        by simp [call_for_optional_string, hc, hreq, h], rfl⟩
    · exact ⟨{ Error := none, LastOp := method }, s,
        by simp [call_for_optional_string, hc, hreq, h], rfl⟩

/-- On a clean client, call_for_void performs one Call and stamps LastOp. -/
theorem call_for_void_clean (net : Net) (m2m : M2MClient) (method : String)
    (args : List GoVal) (req : Request) (hc : m2m.Error = none)
    (hreq : make_request args = some req) :
    ∃ st, call_for_void net m2m method args = some (st, 1)
      ∧ st.LastOp = method := by
  rcases h : net.callVoid method req with e | reply
  · exact ⟨{ Error := some e, LastOp := method },
      by simp [call_for_void, hc, hreq, h], rfl⟩
  · exact ⟨{ Error := none, LastOp := method },
      by simp [call_for_void, hc, hreq, h], rfl⟩

/-- On a clean client an operation always completes (no make_request
panic), performs exactly one Call, and records the method name in LastOp. -/
theorem runOp_clean_shape (net : Net) (m2m : M2MClient) (op : Op)
    (hc : m2m.Error = none) :
    ∃ st res, runOp net m2m op = some (st, res, 1) ∧ st.LastOp = methodName op := by
  cases op
  case CliExec command =>
    obtain ⟨st, rep, heq, hl⟩ := call_for_string_clean net m2m "cli_exec"
      (argsOf (.CliExec command)) (reqOf (.CliExec command)) hc
      (make_request_argsOf (.CliExec command))
    exact ⟨st, .str rep, by simp [runOp, heq], hl⟩
  case CliGet command =>
    obtain ⟨st, rep, heq, hl⟩ := call_for_array_of_arrays_clean net m2m "cli_get"
      (argsOf (.CliGet command)) (reqOf (.CliGet command)) hc
      (make_request_argsOf (.CliGet command))
    exact ⟨st, .arrArr rep, by simp [runOp, heq], hl⟩
  case CliSet command =>
    obtain ⟨st, heq, hl⟩ := call_for_void_clean net m2m "cli_set"
      (argsOf (.CliSet command)) (reqOf (.CliSet command)) hc
      (make_request_argsOf (.CliSet command))
    exact ⟨st, .void, by simp [runOp, heq], hl⟩
  case WriteFile filename data =>
    obtain ⟨st, heq, hl⟩ := call_for_void_clean net m2m "write_file"
      (argsOf (.WriteFile filename data)) (reqOf (.WriteFile filename data)) hc
      (make_request_argsOf (.WriteFile filename data))
    exact ⟨st, .void, by simp [runOp, heq], hl⟩
  case Get path =>
    obtain ⟨st, rep, heq, hl⟩ := call_for_array_of_arrays_clean net m2m "get"
      (argsOf (.Get path)) (reqOf (.Get path)) hc (make_request_argsOf (.Get path))
    exact ⟨st, .arrArr rep, by simp [runOp, heq], hl⟩
  case GetChildren path =>
    obtain ⟨st, rep, heq, hl⟩ := call_for_string_array_clean net m2m "get_children"
      (argsOf (.GetChildren path)) (reqOf (.GetChildren path)) hc
      (make_request_argsOf (.GetChildren path))
    exact ⟨st, .strArr rep, by simp [runOp, heq], hl⟩
  case Set path value =>
    obtain ⟨st, heq, hl⟩ := call_for_void_clean net m2m "set"
      (argsOf (.Set path value)) (reqOf (.Set path value)) hc
      (make_request_argsOf (.Set path value))
    exact ⟨st, .void, by simp [runOp, heq], hl⟩
  case Delete path =>
    obtain ⟨st, heq, hl⟩ := call_for_void_clean net m2m "delete"
      (argsOf (.Delete path)) (reqOf (.Delete path)) hc
      (make_request_argsOf (.Delete path))
    exact ⟨st, .void, by simp [runOp, heq], hl⟩
  case Replace path =>
    obtain ⟨st, heq, hl⟩ := call_for_void_clean net m2m "replace"
      (argsOf (.Replace path)) (reqOf (.Replace path)) hc
      (make_request_argsOf (.Replace path))
    exact ⟨st, .void, by simp [runOp, heq], hl⟩
  case Commit comment label =>
    obtain ⟨st, rep, heq, hl⟩ := call_for_optional_string_clean net m2m "commit"
      (argsOf (.Commit comment label)) (reqOf (.Commit comment label)) hc
      (make_request_argsOf (.Commit comment label))
    exact ⟨st, .str rep, by simp [runOp, heq], hl⟩
  case CommitReplace comment label =>
    obtain ⟨st, rep, heq, hl⟩ := call_for_optional_string_clean net m2m "commit_replace"
      (argsOf (.CommitReplace comment label)) (reqOf (.CommitReplace comment label)) hc
      (make_request_argsOf (.CommitReplace comment label))
    exact ⟨st, .str rep, by simp [runOp, heq], hl⟩
  case DiscardChanges =>
    obtain ⟨st, heq, hl⟩ := call_for_void_clean net m2m "discard_changes"
      (argsOf .DiscardChanges) (reqOf .DiscardChanges) hc
      (make_request_argsOf .DiscardChanges)
    exact ⟨st, .void, by simp [runOp, heq], hl⟩
  case GetChanges =>
    obtain ⟨st, rep, heq, hl⟩ := call_for_array_of_objects_clean net m2m "get_changes"
      (argsOf .GetChanges) (reqOf .GetChanges) hc (make_request_argsOf .GetChanges)
    exact ⟨st, .arrObj rep, by simp [runOp, heq], hl⟩
  case GetSchema path fields =>
    obtain ⟨st, rep, heq, hl⟩ := call_for_object_clean net m2m "get_schema"
      (argsOf (.GetSchema path fields)) (reqOf (.GetSchema path fields)) hc
      (make_request_argsOf (.GetSchema path fields))
    exact ⟨st, .obj rep, by simp [runOp, heq], hl⟩
  case GetVersion =>
    obtain ⟨st, rep, heq, hl⟩ := call_for_object_clean net m2m "get_version"
      (argsOf .GetVersion) (reqOf .GetVersion) hc (make_request_argsOf .GetVersion)
    exact ⟨st, .obj rep, by simp [runOp, heq], hl⟩

/-- A Call oracle where every round trip succeeds. -/
def netOk : Net where
  callString := fun _ _ => .ok "out"
  callOptString := fun _ _ => .ok (some "1001")
  callArrArr := fun _ _ => .ok []
  callStrArr := fun _ _ => .ok []
  callArrObj := fun _ _ => .ok []
  callObj := fun _ _ => .ok []
  callVoid := fun _ _ => .ok (GoVal.str "")

/-- A Call oracle where every round trip fails with "boom". -/
def netFail : Net where
  callString := fun _ _ => .error "boom"
  callOptString := fun _ _ => .error "boom"
  callArrArr := fun _ _ => .error "boom"
  callStrArr := fun _ _ => .error "boom"
  callArrObj := fun _ _ => .error "boom"
  callObj := fun _ _ => .error "boom"
  callVoid := fun _ _ => .error "boom"

/-- netOk with commit replies carrying a nil revision id pointer. -/
def netOkNone : Net := { netOk with callOptString := fun _ _ => .ok none }

/-- C1: on one client, once the first failing operation opK latches an
error from its round trip, every subsequent operation performs zero Call
round trips and returns its result type's zero value (empty string, nil
slice or map, nothing for void), and after the whole sequence the latched
error and last-operation name are exactly those set by opK. -/
theorem rpc_latch_once (net : Net) (st stK : M2MClient) (opK : Op)
    (rK : OpResult) (kK : Nat) (e : String) (suffix : List Op)
    (hclean : st.Error = none)
    (hrun : runOp net st opK = some (stK, rK, kK))
    (hfail : stK.Error = some e) :
    runOps net stK suffix = some (stK, suffix.map (fun op => (zeroResult op, 0)))
      ∧ stK.Error = some e ∧ stK.LastOp = methodName opK := by
  refine ⟨runOps_faulted net stK e hfail suffix, hfail, ?_⟩
  obtain ⟨st2, res2, heq, hl⟩ := runOp_clean_shape net st opK hclean
  rw [heq] at hrun
  simp only [Option.some.injEq, Prod.mk.injEq] at hrun
  obtain ⟨h1, -, -⟩ := hrun
  rw [← h1]
  exact hl

/-- Witness for rpc_latch_once: a cli_set failing with "boom" followed by
a delete that is skipped. -/
theorem rpc_latch_once_witness :
    runOps netFail { Error := some "boom", LastOp := "cli_set" } [Op.Delete "p"]
        = some ({ Error := some "boom", LastOp := "cli_set" },
            [Op.Delete "p"].map (fun op => (zeroResult op, 0)))
      ∧ ({ Error := some "boom", LastOp := "cli_set" } : M2MClient).Error = some "boom"
      ∧ ({ Error := some "boom", LastOp := "cli_set" } : M2MClient).LastOp
          = methodName (Op.CliSet "x") :=
  rpc_latch_once netFail freshClient { Error := some "boom", LastOp := "cli_set" }
    (Op.CliSet "x") OpResult.void 1 "boom" [Op.Delete "p"] rfl rfl rfl

/-- C4 counterexample: a single successful cli_set on a fresh client
leaves the latched error empty yet sets last_operation to "cli_set", so
after a sequence of only successful calls last_operation is not empty. -/
theorem lastop_set_on_success :
    runOp netOk freshClient (Op.CliSet "hostname r1")
        = some ({ Error := none, LastOp := "cli_set" }, OpResult.void, 1)
      ∧ ({ Error := none, LastOp := "cli_set" } : M2MClient).Error = none
      ∧ ({ Error := none, LastOp := "cli_set" } : M2MClient).LastOp ≠ "" :=
  ⟨rfl, rfl, by decide⟩

/-- C4 (amended): once the latched error is non-empty no later operation
changes the client state at all — the error never resets and last_operation
keeps naming the method that latched it; on a clean client every attempted
operation stamps its method name into last_operation whether it succeeds
or fails; a fresh client starts with no error and an empty last_operation. -/
theorem error_latch_and_last_operation (net : Net) (m2m : M2MClient) (op : Op) :
    (∀ e, m2m.Error = some e →
      runOp net m2m op = some (m2m, zeroResult op, 0)
        ∧ ∀ ops : List Op,
            runOps net m2m ops = some (m2m, ops.map (fun o => (zeroResult o, 0))))
      ∧ (m2m.Error = none → ∀ st r k, runOp net m2m op = some (st, r, k) →
          st.LastOp = methodName op ∧ k = 1)
      ∧ freshClient.Error = none ∧ freshClient.LastOp = "" := by
  refine ⟨fun e he => ⟨runOp_faulted net m2m op e he, runOps_faulted net m2m e he⟩,
    fun hc st r k hrun => ?_, rfl, rfl⟩
  obtain ⟨st2, res2, heq, hl⟩ := runOp_clean_shape net m2m op hc
  rw [heq] at hrun
  simp only [Option.some.injEq, Prod.mk.injEq] at hrun
  obtain ⟨h1, -, h3⟩ := hrun
  exact ⟨h1 ▸ hl, h3.symm⟩

/-- Witness for error_latch_and_last_operation: a faulted client skips a
cli_get, returning the nil slice with zero round trips. -/
theorem error_latch_and_last_operation_witness :
    runOp netOk { Error := some "boom", LastOp := "delete" } (Op.CliGet "c")
        = some ({ Error := some "boom", LastOp := "delete" },
            zeroResult (Op.CliGet "c"), 0)
      ∧ ∀ ops : List Op,
          runOps netOk { Error := some "boom", LastOp := "delete" } ops
            = some ({ Error := some "boom", LastOp := "delete" },
                ops.map (fun o => (zeroResult o, 0))) :=
  (error_latch_and_last_operation netOk { Error := some "boom", LastOp := "delete" }
    (Op.CliGet "c")).1 "boom" rfl

/-- C5 counterexample: duplicate argument names are not a construction
error — make_request succeeds and the later value silently overwrites the
earlier one. -/
theorem make_request_duplicate_overwrites :
    make_request [GoVal.str "a", GoVal.int 1, GoVal.str "a", GoVal.int 2]
      = some [("a", GoVal.int 2)] := rfl

/-- C5 (amended): building a Request from pairs [(a,1),(b,2)] yields the
mapping with a bound to 1 and b bound to 2; duplicate argument names are
silently collapsed, the later value overwriting the earlier, with no
construction error. -/
theorem make_request_ordered_pairs :
    make_request [GoVal.str "a", GoVal.int 1, GoVal.str "b", GoVal.int 2]
        = some [("a", GoVal.int 1), ("b", GoVal.int 2)]
      ∧ make_request [GoVal.str "a", GoVal.int 1, GoVal.str "a", GoVal.int 2]
        = some [("a", GoVal.int 2)] := ⟨rfl, rfl⟩

/-- C6: on a clean client a commit operation — Commit or CommitReplace —
whose reply carries a nil revision id pointer returns the empty string and
leaves the latched error empty (success), while one whose round trip
fails latches the error — the two outcomes are distinguishable through
the client state. -/
theorem commit_nil_revision_is_success (net net2 : Net) (st : M2MClient)
    (comment label e : String) (hclean : st.Error = none)
    (habsent : net.callOptString "commit"
        [("comment", GoVal.str comment), ("label", GoVal.str label)]
        = Except.ok none)
    (habsentR : net.callOptString "commit_replace"
        [("comment", GoVal.str comment), ("label", GoVal.str label)]
        = Except.ok none)
    (hfail : net2.callOptString "commit"
        [("comment", GoVal.str comment), ("label", GoVal.str label)]
        = Except.error e)
    (hfailR : net2.callOptString "commit_replace"
        [("comment", GoVal.str comment), ("label", GoVal.str label)]
        = Except.error e) :
    runOp net st (Op.Commit comment label)
        = some ({ Error := none, LastOp := "commit" }, OpResult.str "", 1)
      ∧ runOp net st (Op.CommitReplace comment label)
        = some ({ Error := none, LastOp := "commit_replace" }, OpResult.str "", 1)
      ∧ runOp net2 st (Op.Commit comment label)
        = some ({ Error := some e, LastOp := "commit" }, OpResult.str "", 1)
      ∧ runOp net2 st (Op.CommitReplace comment label)
        = some ({ Error := some e, LastOp := "commit_replace" }, OpResult.str "", 1) := by
  have hreq := make_request_argsOf (Op.Commit comment label)
  have hreqR := make_request_argsOf (Op.CommitReplace comment label)
  refine ⟨?_, ?_, ?_, ?_⟩ <;>
    simp [runOp, call_for_optional_string, hclean, hreq, hreqR, reqOf,
      habsent, habsentR, hfail, hfailR]

/-- Witness for commit_nil_revision_is_success: nothing-to-commit commit
and commit_replace versus failing ones on a fresh client. -/
theorem commit_nil_revision_is_success_witness :
    runOp netOkNone freshClient (Op.Commit "c" "l")
        = some ({ Error := none, LastOp := "commit" }, OpResult.str "", 1)
      ∧ runOp netOkNone freshClient (Op.CommitReplace "c" "l")
        = some ({ Error := none, LastOp := "commit_replace" }, OpResult.str "", 1)
      ∧ runOp netFail freshClient (Op.Commit "c" "l")
        = some ({ Error := some "boom", LastOp := "commit" }, OpResult.str "", 1)
      ∧ runOp netFail freshClient (Op.CommitReplace "c" "l")
        = some ({ Error := some "boom", LastOp := "commit_replace" },
            OpResult.str "", 1) :=
  commit_nil_revision_is_success netOkNone netFail freshClient "c" "l" "boom"
    rfl rfl rfl rfl rfl

/-- An argument list whose even positions are string literals and whose
length is even (the shape make_request consumes without panicking). -/
def wellFormedArgs : List GoVal → Bool
  | [] => true
  | GoVal.str _ :: _ :: rest => wellFormedArgs rest
  | _ => false

/-- C10: every wrapper passes an even-length argument list with string
literals at the even positions, make_request therefore never reaches its
out-of-bounds or failed-type-assertion panic paths, and every public
operation is total for every oracle and client state. -/
theorem public_args_never_panic (op : Op) :
    (argsOf op).length % 2 = 0
      ∧ wellFormedArgs (argsOf op) = true
      ∧ (make_request (argsOf op)).isSome = true
      ∧ ∀ (net : Net) (m2m : M2MClient), (runOp net m2m op).isSome = true := by
  refine ⟨?_, ?_, ?_, ?_⟩
  · cases op
    case GetSchema path fields =>
      by_cases hf : fields = ""
      · subst hf
        simp [argsOf]
      · simp only [argsOf, if_pos hf]
        simp
    all_goals simp [argsOf]
  · cases op
    case GetSchema path fields =>
      by_cases hf : fields = ""
      · subst hf
        rfl
      · simp only [argsOf, if_pos hf]
        rfl
    all_goals rfl
  · rw [make_request_argsOf op]
    rfl
  · intro net m2m
    cases he : m2m.Error with
    | none =>
      obtain ⟨st, res, heq, -⟩ := runOp_clean_shape net m2m op he
      rw [heq]
      rfl
    | some e =>
      rw [runOp_faulted net m2m op e he]
      rfl

/-- Creds (ssh.go lines 19-23): simplified SSH credentials. -/
structure Creds where
  User : String
  Password : String
  Keypathname : String
  deriving DecidableEq, Repr

/-- An ssh.AuthMethod: ssh.Password or ssh.PublicKeys (parsed keys are
abstract Nat tokens). -/
inductive AuthMethod where
  | password (pw : String)
  | publicKeys (key : Nat)
  deriving DecidableEq, Repr

/-- The ssh.ClientConfig NewXrSession builds (ssh.go lines 41-45). -/
structure ClientConfig where
  User : String
  Auth : List AuthMethod
  Ciphers : List String
  deriving DecidableEq, Repr

/-- Oracles for the external effects of ssh.go: ioutil.ReadFile,
ssh.ParsePrivateKey, ssh.Dial, client.NewSession, session.StdinPipe,
session.StdoutPipe and session.Start.  Connection, session and pipe
handles are abstract Nat tokens; an Except.error carries the underlying
failure message. -/
structure SshWorld where
  readFile : String → Except String (List Nat)
  parseKey : List Nat → Except String Nat
  dial : String → String → ClientConfig → Except String Nat
  newSession : Nat → Except String Nat
  stdinPipe : Nat → Except String Nat
  stdoutPipe : Nat → Except String Nat
  start : Nat → String → Except String Unit

/-- get_auth (ssh.go lines 93-118): a password method when Password is
non-empty, then a public-key method when Keypathname is non-empty; a key
file read or parse failure aborts with a wrapped error. -/
def get_auth (w : SshWorld) (creds : Creds) : Except String (List AuthMethod) :=
  let auth : List AuthMethod := []
  let auth :=
    if creds.Password ≠ "" then auth ++ [AuthMethod.password creds.Password] else auth
  if creds.Keypathname ≠ "" then
    match w.readFile creds.Keypathname with
    | .error e => .error ("Can't read private key file: " ++ e)
    | .ok buf =>
      match w.parseKey buf with
      | .error e => .error ("Can't parse private key: " ++ e)
      | .ok key => .ok (auth ++ [AuthMethod.publicKeys key])
  else
    .ok auth

/-- XrSession (ssh.go lines 27-32): abstract session/stdin/stdout handles
plus the readiness flag, which is false at construction (line 76) and set
true only by the preamble goroutine (line 86). -/
structure XrSession where
  session : Nat
  stdin : Nat
  stdout : Nat
  ready : Bool
  deriving DecidableEq, Repr

/-- The stages NewXrSession attempts, in source order; network activity
happens from Stage.dial on. -/
inductive Stage where
  | getAuth
  | dial
  | newSession
  | stdinPipe
  | stdoutPipe
  | start
  deriving DecidableEq, Repr

/-- NewXrSession (ssh.go lines 36-90): each stage either fails the whole
construction with its own wrapped error message and no handle, or
proceeds; on success the handle starts not ready.  The second component
records the stages this run attempted. -/
def NewXrSession (w : SshWorld) (host : String) (creds : Creds) (cmd : String) :
    Except String XrSession × List Stage :=
  match get_auth w creds with
  | .error e => (.error e, [Stage.getAuth])
  | .ok auth =>
    match w.dial "tcp" host
        { User := creds.User, Auth := auth,
          Ciphers := ["aes128-ctr", "aes128-cbc"] } with
    | .error e => (.error ("Can't connect: " ++ e), [Stage.getAuth, Stage.dial])
    | .ok client =>
      match w.newSession client with
      | .error e => (.error ("Can't create session: " ++ e),
          [Stage.getAuth, Stage.dial, Stage.newSession])
      | .ok sess =>
        match w.stdinPipe sess with
        | .error e => (.error ("Can't create stdin pipe: " ++ e),
            [Stage.getAuth, Stage.dial, Stage.newSession, Stage.stdinPipe])
        | .ok stdin =>
          match w.stdoutPipe sess with
          | .error e => (.error ("Can't create stdout pipe: " ++ e),
              [Stage.getAuth, Stage.dial, Stage.newSession, Stage.stdinPipe,
                Stage.stdoutPipe])
          | .ok stdout =>
            match w.start sess cmd with
            | .error e => (.error ("Can't start command: " ++ e),
                [Stage.getAuth, Stage.dial, Stage.newSession, Stage.stdinPipe,
                  Stage.stdoutPipe, Stage.start])
            | .ok _ =>
                (.ok (XrSession.mk sess stdin stdout false),
                  [Stage.getAuth, Stage.dial, Stage.newSession, Stage.stdinPipe,
                    Stage.stdoutPipe, Stage.start])

/-- Outcome of the background preamble goroutine. -/
inductive PreambleOutcome where
  | ready
  | panicked (msg : String)
  deriving DecidableEq, Repr

/-- The body of the goroutine NewXrSession spawns (ssh.go lines 80-87):
one read from stdout; on failure it calls panic with the wrapped message
(which, in an unrecovered goroutine, terminates the whole process), on
success it sets the ready flag. -/
def preamble_goroutine (readResult : Except String Nat) : PreambleOutcome :=
  match readResult with
  | .error e => .panicked ("Can't read preamble: " ++ e)
  | .ok _ => .ready

/-- Asynchronous events on a constructed XrSession: the preamble
goroutine's single read completing (setting ready, ssh.go line 86) or
failing (panicking; the ready flag is never set). -/
inductive XrEvent where
  | preambleOk
  | preambleFailed
  deriving DecidableEq, Repr

/-- State change each asynchronous event applies to the handle. -/
def stepEvent (s : XrSession) (ev : XrEvent) : XrSession :=
  match ev with
  | .preambleOk => { s with ready := true }
  | .preambleFailed => s

/-- XrSession.Read (ssh.go lines 123-128): spin until ready, then delegate
to the underlying stdout read and return its (count, error) result
unchanged; `none` models a call still blocked in the wait loop. -/
def XrSession.Read (xrs : XrSession) (stdoutResult : Nat × Option String) :
    Option (Nat × Option String) :=
  if xrs.ready then some stdoutResult else none

/-- XrSession.Write (ssh.go lines 130-135): spin until ready, then
delegate to the underlying stdin write and return its result unchanged. -/
def XrSession.Write (xrs : XrSession) (stdinResult : Nat × Option String) :
    Option (Nat × Option String) :=
  if xrs.ready then some stdinResult else none

/-- A successfully constructed handle starts with ready = false. -/
theorem NewXrSession_not_ready (w : SshWorld) (host : String) (creds : Creds)
    (cmd : String) (s : XrSession)
    (h : (NewXrSession w host creds cmd).1 = Except.ok s) : s.ready = false := by
  unfold NewXrSession at h
  repeat' split at h
  all_goals
    first
      | exact Except.noConfusion h
      | (injection h with h2
         rw [← h2])

/-- Without the preamble-completion event the ready flag never changes. -/
theorem foldl_ready_of_not_mem (evs : List XrEvent) :
    ∀ s : XrSession, XrEvent.preambleOk ∉ evs →
      (evs.foldl stepEvent s).ready = s.ready := by
  induction evs with
  | nil => intro s _; rfl
  | cons ev rest ih =>
    intro s hmem
    rcases ev with _ | _
    · exact absurd (List.mem_cons_self _ _) hmem
    · exact ih s (fun hm => hmem (List.mem_cons_of_mem _ hm))

/-- A world where every external operation succeeds, with fixed handle
tokens. -/
def wOk : SshWorld where
  readFile := fun _ => .ok [1]
  parseKey := fun _ => .ok 7
  dial := fun _ _ _ => .ok 0
  newSession := fun _ => .ok 0
  stdinPipe := fun _ => .ok 1
  stdoutPipe := fun _ => .ok 2
  start := fun _ _ => .ok ()

/-- wOk with a dial that is refused. -/
def wDialFail : SshWorld := { wOk with dial := fun _ _ _ => .error "refused" }

/-- wOk with an unreadable key file. -/
def wReadFail : SshWorld := { wOk with readFile := fun _ => .error "no such file" }

/-- C2 (behavior of the code at the failing input): when the preamble read
fails, the goroutine body panics with the wrapped message — in an
unrecovered goroutine a process-fatal crash — instead of recording a
transport fault for subsequent reads and writes to surface. -/
theorem preamble_read_failure_panics :
    preamble_goroutine (Except.error "EOF")
      = PreambleOutcome.panicked ("Can't read preamble: " ++ "EOF") := rfl

/-- C3 counterexample: with empty user, empty password and empty key path,
construction does not fail validation — get_auth returns an empty method
list without error, the SSH dial is still attempted, and (in a world whose
operations succeed) a handle is even returned. -/
theorem empty_creds_still_dial :
    get_auth wOk (Creds.mk "" "" "") = Except.ok []
      ∧ Stage.dial ∈ (NewXrSession wOk "198.51.100.1:22" (Creds.mk "" "" "")
          "run json_rpc_server").2
      ∧ (NewXrSession wOk "198.51.100.1:22" (Creds.mk "" "" "")
          "run json_rpc_server").1 = Except.ok (XrSession.mk 0 1 2 false) := by
  refine ⟨rfl, ?_, rfl⟩
  decide

/-- C3 (amended): the connect path performs no credential validation:
whatever the user (including empty), with both password and key path empty
get_auth returns an empty authentication-method list without error, and
NewXrSession always goes on to attempt the SSH dial. -/
theorem no_credential_validation (w : SshWorld) (creds : Creds) (host cmd : String)
    (hp : creds.Password = "") (hk : creds.Keypathname = "") :
    get_auth w creds = Except.ok []
      ∧ Stage.dial ∈ (NewXrSession w host creds cmd).2 := by
  have hga : get_auth w creds = Except.ok [] := by
    simp [get_auth, hp, hk]
  refine ⟨hga, ?_⟩
  unfold NewXrSession
  rw [hga]
  rcases hd : w.dial "tcp" host
      { User := creds.User, Auth := [], Ciphers := ["aes128-ctr", "aes128-cbc"] }
    with e | client
  · simp [hd]
  rcases hs : w.newSession client with e | sess
  · simp [hd, hs]
  rcases hi : w.stdinPipe sess with e | stdin
  · simp [hd, hs, hi]
  rcases ho : w.stdoutPipe sess with e | stdout
  · simp [hd, hs, hi, ho]
  rcases hst : w.start sess cmd with e | u <;> simp [hd, hs, hi, ho, hst]

/-- Witness for no_credential_validation at concrete empty credentials. -/
theorem no_credential_validation_witness :
    get_auth wOk (Creds.mk "" "" "") = Except.ok []
      ∧ Stage.dial ∈ (NewXrSession wOk "host:22" (Creds.mk "" "" "") "cmd").2 :=
  no_credential_validation wOk (Creds.mk "" "" "") "host:22" "cmd" rfl rfl

/-- C7: on a freshly constructed handle, reads and writes stay blocked
(return nothing, move no bytes) until the preamble-discard event has run,
and whenever they complete they return the underlying stream's count and
error exactly as received. -/
theorem readiness_gate (w : SshWorld) (host : String) (creds : Creds) (cmd : String)
    (xrs0 : XrSession) (evs : List XrEvent) (res wres : Nat × Option String)
    (hc : (NewXrSession w host creds cmd).1 = Except.ok xrs0) :
    (XrEvent.preambleOk ∉ evs →
        XrSession.Read (evs.foldl stepEvent xrs0) res = none
          ∧ XrSession.Write (evs.foldl stepEvent xrs0) wres = none)
      ∧ (∀ out, XrSession.Read (evs.foldl stepEvent xrs0) res = some out → out = res)
      ∧ (∀ out, XrSession.Write (evs.foldl stepEvent xrs0) wres = some out → out = wres)
      ∧ ((evs.foldl stepEvent xrs0).ready = true →
          XrSession.Read (evs.foldl stepEvent xrs0) res = some res
            ∧ XrSession.Write (evs.foldl stepEvent xrs0) wres = some wres) := by
  have h0 : xrs0.ready = false := NewXrSession_not_ready w host creds cmd xrs0 hc
  refine ⟨fun hmem => ?_, fun out hsome => ?_, fun out hsome => ?_, fun hr => ?_⟩
  · have hready := foldl_ready_of_not_mem evs xrs0 hmem
    rw [h0] at hready
    simp [XrSession.Read, XrSession.Write, hready]
  · by_cases hr : (evs.foldl stepEvent xrs0).ready
    · simpa [XrSession.Read, hr] using hsome.symm
    · simp [XrSession.Read, hr] at hsome
  · by_cases hr : (evs.foldl stepEvent xrs0).ready
    · simpa [XrSession.Write, hr] using hsome.symm
    · simp [XrSession.Write, hr] at hsome
  · simp [XrSession.Read, XrSession.Write, hr]

/-- Witness for readiness_gate: after construction in wOk and the
preamble event, a read completes with the delegated result. -/
theorem readiness_gate_witness :
    XrSession.Read (List.foldl stepEvent (XrSession.mk 0 1 2 false)
        [XrEvent.preambleOk]) (5, none) = some (5, none)
      ∧ XrSession.Write (List.foldl stepEvent (XrSession.mk 0 1 2 false)
        [XrEvent.preambleOk]) (3, none) = some (3, none) :=
  (readiness_gate wOk "host:22" (Creds.mk "u" "p" "") "run json_rpc_server"
    (XrSession.mk 0 1 2 false) [XrEvent.preambleOk] (5, none) (3, none)
    rfl).2.2.2 rfl

/-- C8: the auth list carries a password method exactly when the password
is non-empty and a public-key method exactly when the key path is
non-empty, with the password method first when both are present; key-file
read or parse failures abort the whole connect attempt with a wrapped
connection error before the dial. -/
theorem auth_method_list_spec (w : SshWorld) (creds : Creds) (host cmd : String) :
    (creds.Keypathname = "" → creds.Password ≠ "" →
        get_auth w creds = Except.ok [AuthMethod.password creds.Password])
      ∧ (creds.Keypathname = "" → creds.Password = "" →
          get_auth w creds = Except.ok [])
      ∧ (∀ buf key, creds.Keypathname ≠ "" → creds.Password ≠ "" →
          w.readFile creds.Keypathname = Except.ok buf →
          w.parseKey buf = Except.ok key →
          get_auth w creds
            = Except.ok [AuthMethod.password creds.Password,
                AuthMethod.publicKeys key])
      ∧ (∀ buf key, creds.Keypathname ≠ "" → creds.Password = "" →
          w.readFile creds.Keypathname = Except.ok buf →
          w.parseKey buf = Except.ok key →
          get_auth w creds = Except.ok [AuthMethod.publicKeys key])
      ∧ (∀ e, creds.Keypathname ≠ "" → w.readFile creds.Keypathname = Except.error e →
          get_auth w creds = Except.error ("Can't read private key file: " ++ e)
            ∧ (NewXrSession w host creds cmd).1
              = Except.error ("Can't read private key file: " ++ e)
            ∧ Stage.dial ∉ (NewXrSession w host creds cmd).2)
      ∧ (∀ buf e, creds.Keypathname ≠ "" → w.readFile creds.Keypathname = Except.ok buf →
          w.parseKey buf = Except.error e →
          get_auth w creds = Except.error ("Can't parse private key: " ++ e)
            ∧ (NewXrSession w host creds cmd).1
              = Except.error ("Can't parse private key: " ++ e)
            ∧ Stage.dial ∉ (NewXrSession w host creds cmd).2) := by
  refine ⟨fun hk hp => ?_, fun hk hp => ?_, fun buf key hk hp hr hpk => ?_,
    fun buf key hk hp hr hpk => ?_, fun e hk hr => ?_, fun buf e hk hr hpk => ?_⟩
  · simp [get_auth, hk, hp]
  · simp [get_auth, hk, hp]
  · simp [get_auth, hk, hp, hr, hpk]
  · simp [get_auth, hk, hp, hr, hpk]
  · have hga : get_auth w creds = Except.error ("Can't read private key file: " ++ e) := by
      simp [get_auth, hk, hr]
    refine ⟨hga, ?_, ?_⟩ <;> simp [NewXrSession, hga]
  · have hga : get_auth w creds = Except.error ("Can't parse private key: " ++ e) := by
      simp [get_auth, hk, hr, hpk]
    refine ⟨hga, ?_, ?_⟩ <;> simp [NewXrSession, hga]

/-- Witness for auth_method_list_spec: password plus key yields both
methods in order; an unreadable key file aborts before the dial. -/
theorem auth_method_list_spec_witness :
    get_auth wOk (Creds.mk "u" "pw" "/id") 
        = Except.ok [AuthMethod.password "pw", AuthMethod.publicKeys 7]
      ∧ get_auth wReadFail (Creds.mk "u" "pw" "/id")
          = Except.error ("Can't read private key file: " ++ "no such file")
      ∧ Stage.dial ∉ (NewXrSession wReadFail "host:22" (Creds.mk "u" "pw" "/id") "cmd").2 := by
  refine ⟨?_, ?_, ?_⟩
  · exact (auth_method_list_spec wOk (Creds.mk "u" "pw" "/id") "host:22"
      "cmd").2.2.1 [1] 7 (by decide) (by decide) rfl rfl
  · exact ((auth_method_list_spec wReadFail (Creds.mk "u" "pw" "/id") "host:22"
      "cmd").2.2.2.2.1 "no such file" (by decide) rfl).1
  · exact ((auth_method_list_spec wReadFail (Creds.mk "u" "pw" "/id") "host:22"
      "cmd").2.2.2.2.1 "no such file" (by decide) rfl).2.2

/-- C9: with authentication methods in hand, a failure at the dial, the
session creation, the stdin or stdout pipe acquisition, or the command
start each fails the construction (no handle) with its own error message
wrapping the underlying cause, and the five messages are pairwise
distinct. -/
theorem connect_stage_errors (w : SshWorld) (host cmd : String) (creds : Creds)
    (auth : List AuthMethod) (hauth : get_auth w creds = Except.ok auth) :
    (∀ e, w.dial "tcp" host
          { User := creds.User, Auth := auth,
            Ciphers := ["aes128-ctr", "aes128-cbc"] } = Except.error e →
        (NewXrSession w host creds cmd).1 = Except.error ("Can't connect: " ++ e))
      ∧ (∀ client e, w.dial "tcp" host
            { User := creds.User, Auth := auth,
              Ciphers := ["aes128-ctr", "aes128-cbc"] } = Except.ok client →
          w.newSession client = Except.error e →
          (NewXrSession w host creds cmd).1
            = Except.error ("Can't create session: " ++ e))
      ∧ (∀ client sess e, w.dial "tcp" host
            { User := creds.User, Auth := auth,
              Ciphers := ["aes128-ctr", "aes128-cbc"] } = Except.ok client →
          w.newSession client = Except.ok sess →
          w.stdinPipe sess = Except.error e →
          (NewXrSession w host creds cmd).1
            = Except.error ("Can't create stdin pipe: " ++ e))
      ∧ (∀ client sess stdin e, w.dial "tcp" host
            { User := creds.User, Auth := auth,
              Ciphers := ["aes128-ctr", "aes128-cbc"] } = Except.ok client →
          w.newSession client = Except.ok sess →
          w.stdinPipe sess = Except.ok stdin →
          w.stdoutPipe sess = Except.error e →
          (NewXrSession w host creds cmd).1
            = Except.error ("Can't create stdout pipe: " ++ e))
      ∧ (∀ client sess stdin stdout e, w.dial "tcp" host
            { User := creds.User, Auth := auth,
              Ciphers := ["aes128-ctr", "aes128-cbc"] } = Except.ok client →
          w.newSession client = Except.ok sess →
          w.stdinPipe sess = Except.ok stdin →
          w.stdoutPipe sess = Except.ok stdout →
          w.start sess cmd = Except.error e →
          (NewXrSession w host creds cmd).1
            = Except.error ("Can't start command: " ++ e))
      ∧ (["Can't connect: ", "Can't create session: ", "Can't create stdin pipe: ",
          "Can't create stdout pipe: ", "Can't start command: "] : List String).Nodup := by
  refine ⟨fun e hd => ?_, fun client e hd hs => ?_, fun client sess e hd hs hi => ?_,
    fun client sess stdin e hd hs hi ho => ?_,
    fun client sess stdin stdout e hd hs hi ho hst => ?_, by decide⟩
  · simp [NewXrSession, hauth, hd]
  · simp [NewXrSession, hauth, hd, hs]
  · simp [NewXrSession, hauth, hd, hs, hi]
  · simp [NewXrSession, hauth, hd, hs, hi, ho]
  · simp [NewXrSession, hauth, hd, hs, hi, ho, hst]

/-- Witness for connect_stage_errors: a refused dial yields the wrapped
connect error. -/
theorem connect_stage_errors_witness :
    (NewXrSession wDialFail "host:22" (Creds.mk "u" "p" "") "cmd").1
      = Except.error ("Can't connect: " ++ "refused") :=
  (connect_stage_errors wDialFail "host:22" "cmd" (Creds.mk "u" "p" "")
    [AuthMethod.password "p"] rfl).1 "refused" rfl

end Xrm2m
